import Mathlib

/-!
Verification of the pathomx dataflow/execution core against its
natural-language specification.

Shallow embedding of `src/pathomx/__init__.py` (serialization channel /
notebook start-stop protocol) and of the scheduler methods of
`GenericApp` in `src/pathomx/ui.py` (single-flight run queue).

Python dictionaries are modelled as association lists with
insertion-order semantics (`insertD` replaces in place, appends fresh
keys at the end); Python exceptions are modelled with `Except String`.
Presentation-only effects (logging, Qt signals other than the status
string, matplotlib global `rcParams` mutation) are elided; their
error behaviour (`KeyError` / `AttributeError` on missing or non-dict
values) is kept.
-/

namespace Pathomx

/-- The `_imcache` render cache of one axes image, plus its payload. -/
structure ImgData where
  imcache : Option Nat
  imdata : Nat
  deriving DecidableEq, Repr

/-- One axes of a matplotlib figure: its image list, its private
render cache and its (abstracted) plotted content. -/
structure AxData where
  cachedRenderer : Option Nat
  images : List ImgData
  content : Nat
  deriving DecidableEq, Repr

/-- A matplotlib `Figure`: private render cache, axes stack and
(abstracted) figure content. -/
structure FigureData where
  cachedRenderer : Option Nat
  axes : List AxData
  content : Nat
  deriving DecidableEq, Repr

/-- Python runtime type tags for the values crossing the notebook
boundary.  `npArrayFn` stands for the entry `np.array` of
`MAGIC_TYPES`, which is a function, not a type: no value's `type()`
ever equals it.  `subclass t` is the type of an instance of a strict
subclass of `t`. -/
inductive PyType where
  | npArrayFn
  | ndarray
  | series
  | dataFrame
  | figure
  | subplot
  | stylesManager
  | svgT
  | htmlT
  | displaySVG
  | strT
  | intT
  | dictT
  | listT
  | noneT
  | objT
  | subclass (t : PyType)
  deriving DecidableEq, Repr

/-- Python values as they appear in a notebook namespace.  Portable
payloads are abstracted to simple data; `ioDict` models the nested
`{'input': {...}, 'output': {...}}` dict built by `generate`;
`pyDict` models a primitive-valued dict such as `rcParams` or
`config`; `strList` models a list of strings such as
`_pathomx_exclude_input_vars`; `subclassVal t n` is an instance of a
strict subclass of `t`; `otherObj` is any other non-portable object. -/
inductive PyValue where
  | ndarray (data : List Int)
  | series (data : List Int)
  | dataFrame (data : List (List Int))
  | figure (f : FigureData)
  | subplot (n : Nat)
  | stylesManager (n : Nat)
  | svgObj (s : String)
  | htmlObj (s : String)
  | displaySVG (s : String)
  | pyStr (s : String)
  | pyInt (n : Int)
  | pyDict (entries : List (String × Int))
  | strList (l : List String)
  | ioDict (input : List (String × Option String)) (output : List (String × String))
  | pyNone
  | subclassVal (t : PyType) (n : Nat)
  | otherObj (n : Nat)
  deriving DecidableEq, Repr

/-- The runtime type `type(v)` of an embedded value. -/
def typeOf : PyValue → PyType
  | .ndarray _ => .ndarray
  | .series _ => .series
  | .dataFrame _ => .dataFrame
  | .figure _ => .figure
  | .subplot _ => .subplot
  | .stylesManager _ => .stylesManager
  | .svgObj _ => .svgT
  | .htmlObj _ => .htmlT
  | .displaySVG _ => .displaySVG
  | .pyStr _ => .strT
  | .pyInt _ => .intT
  | .pyDict _ => .dictT
  | .strList _ => .listT
  | .ioDict _ _ => .dictT
  | .pyNone => .noneT
  | .subclassVal t _ => .subclass t
  | .otherObj _ => .objT

/-- The allow-list `MAGIC_TYPES` from `src/pathomx/__init__.py`, in source order:
`np.array, np.ndarray, pd.Series, pd.DataFrame, Figure, Subplot,
StylesManager, Svg, Html, display.SVG`. -/
def MAGIC_TYPES : List PyType :=
  [.npArrayFn, .ndarray, .series, .dataFrame, .figure, .subplot,
   .stylesManager, .svgT, .htmlT, .displaySVG]

/-- A Python dict over string keys, as an ordered association list
with (maintained) unique keys. -/
abbrev Dict := List (String × PyValue)

/-- Dict read: first binding of the key. -/
def lookupD : Dict → String → Option PyValue
  | [], _ => none
  | (k, v) :: rest, key => if k = key then some v else lookupD rest key

/-- Dict write `d[key] = val`: replace in place, or append a fresh
key at the end (Python insertion-order semantics). -/
def insertD : Dict → String → PyValue → Dict
  | [], key, val => [(key, val)]
  | (k, v) :: rest, key, val =>
      if k = key then (k, val) :: rest else (k, v) :: insertD rest key val

/-- The test `k.startswith('_')` for the single-character private prefix used
throughout the source. -/
def underscoreFirst (s : String) : Bool :=
  match s.data with
  | [] => false
  | c :: _ => c = '_'

/-- Python `os.path.dirname`: everything before the last `/`. -/
def dirnameOf (fn : String) : String :=
  let parts := fn.splitOn "/"
  if parts.length ≤ 1 then "" else String.intercalate "/" parts.dropLast

/-- Function `figure_prepickle_handler` from `src/pathomx/__init__.py`: clear
the figure's cached renderer, and on every axes clear every image's
`_imcache` and the axes' cached renderer.  The plotted content is
untouched. -/
def figure_prepickle_handler (f : FigureData) : FigureData :=
  { cachedRenderer := none
    axes := f.axes.map (fun ax =>
      { cachedRenderer := none
        images := ax.images.map (fun im => { im with imcache := none })
        content := ax.content })
    content := f.content }

/-- The transformation `pathomx_notebook_stop` applies to a value
before collecting it: exactly `Figure`-typed values go through
`figure_prepickle_handler`; everything else is untouched. -/
def encodeStrip (v : PyValue) : PyValue :=
  match v with
  | .figure f => .figure (figure_prepickle_handler f)
  | v => v

/-- A value carries no transient render cache: stripping it is the
identity. -/
def cacheFree (v : PyValue) : Prop := encodeStrip v = v

instance (v : PyValue) : Decidable (cacheFree v) := by
  unfold cacheFree; infer_instance

/-- The wipe loop opening `pathomx_notebook_start`: delete every
binding whose value's type is in `MAGIC_TYPES` and whose name does
not start with `_`. -/
def wipeVars (vars : Dict) : Dict :=
  vars.filter (fun kv =>
    !(decide (typeOf kv.2 ∈ MAGIC_TYPES) && !underscoreFirst kv.1))

/-- The list `[x for x in ivars.keys() if x not in _keep_input_vars]` with
`_keep_input_vars = ['styles']`. -/
def excludeInputVars (ivars : Dict) : List String :=
  (ivars.map (fun kv => kv.1)).filter (fun x => !(decide (x ∈ ["styles"])))

/-- Function `pathomx_notebook_start(fn, vars)` from
`src/pathomx/__init__.py`.  `file` is the content of the pickle file
at `fn` (`none` when the file is missing or unreadable: the unguarded
`open`/`pickle.load` then raises).  Steps, in source order: wipe
portable non-private bindings; load the snapshot and merge it in; set
`_pathomx_exclude_input_vars` and `_pathomx_tempdir`; apply the IO
aliasing from `vars['_io']['input']`; apply `vars['rcParams']` to the
matplotlib globals (the mutation is elided, the `KeyError` /
`AttributeError` on a missing or non-dict value is kept). -/
def pathomx_notebook_start (fn : String) (file : Option Dict) (vars : Dict) :
    Except String Dict :=
  let vars := wipeVars vars
  match file with
  | none => .error "IOError"
  | some ivars =>
    let vars := ivars.foldl (fun vs kv => insertD vs kv.1 kv.2) vars
    let vars := insertD vars "_pathomx_exclude_input_vars"
      (.strList (excludeInputVars ivars))
    let vars := insertD vars "_pathomx_tempdir" (.pyStr (dirnameOf fn))
    match lookupD vars "_io" with
    | some (.ioDict input _) =>
      let vars := input.foldl (fun vs kv =>
        match kv.2 with
        | some src =>
          match lookupD vs src with
          | some v => insertD vs kv.1 v
          | none => insertD vs kv.1 .pyNone
        | none => insertD vs kv.1 .pyNone) vars
      match lookupD vars "rcParams" with
      | some (.pyDict _) => .ok vars
      | some _ => .error "AttributeError"
      | none => .error "KeyError"
    | some _ => .error "TypeError"
    | none => .error "KeyError"

/-- One iteration of the collection loop of `pathomx_notebook_stop`:
skip private names; otherwise read `vars['_pathomx_exclude_input_vars']`
(raising `KeyError` if absent, as the source would, and only then, by
short-circuit); skip excluded names and non-portable values; collect
everything else, figures stripped first. -/
def collectStep (vars : Dict) (ov : Dict) (kv : String × PyValue) :
    Except String Dict :=
  if underscoreFirst kv.1 then .ok ov
  else
    match lookupD vars "_pathomx_exclude_input_vars" with
    | some (.strList excl) =>
      if kv.1 ∈ excl then .ok ov
      else if typeOf kv.2 ∈ MAGIC_TYPES then
        .ok (insertD ov kv.1 (encodeStrip kv.2))
      else .ok ov
    | some _ => .error "TypeError"
    | none => .error "KeyError"

/-- One iteration of the output-aliasing loop of
`pathomx_notebook_stop`: `vars[v] = vars[k]` when the port name `k`
is bound, else `vars[v] = None`. -/
def aliasOut (vs : Dict) (kv : String × String) : Dict :=
  match lookupD vs kv.1 with
  | some v => insertD vs kv.2 v
  | none => insertD vs kv.2 .pyNone

/-- Function `pathomx_notebook_stop(fn, vars)` from `src/pathomx/__init__.py`.
First the output aliasing from `vars['_io']['output']` (absent port
names alias to `None`), then the collection loop over the mutated
namespace.  Returns the mutated namespace together with the mapping
pickled to the output file. -/
def pathomx_notebook_stop (vars : Dict) : Except String (Dict × Dict) :=
  match lookupD vars "_io" with
  | some (.ioDict _ output) =>
    let vars := output.foldl aliasOut vars
    match vars.foldlM (collectStep vars) ([] : Dict) with
    | .ok ovars => .ok (vars, ovars)
    | .error e => .error e
  | some _ => .error "TypeError"
  | none => .error "KeyError"

/-- The plumbing a live namespace always carries when
`pathomx_notebook_stop` runs (set up by `generate` / `..._start`):
an empty IO mapping, an empty exclusion list, an empty `rcParams`. -/
def basePlumbing : Dict :=
  [("_io", .ioDict [] []), ("_pathomx_exclude_input_vars", .strList []),
   ("rcParams", .pyDict [])]

/-- The plumbing of the namespace on the decode side (before
`pathomx_notebook_start` runs, which sets the exclusion list itself). -/
def decodePlumbing : Dict :=
  [("_io", .ioDict [] []), ("rcParams", .pyDict [])]

/-- The round trip `decode(encode({x: v}))` at the function level of the source:
run `pathomx_notebook_stop` on a namespace binding `x` to `v` (plus
plumbing), feed the produced snapshot to `pathomx_notebook_start` on
a fresh namespace, and look up `x` in the result. -/
def roundTrip (x : String) (v : PyValue) : Except String (Option PyValue) :=
  match pathomx_notebook_stop (insertD basePlumbing x v) with
  | .ok (_, ovars) =>
    match pathomx_notebook_start "/tmp/job/in" (some ovars) decodePlumbing with
    | .ok vars2 => .ok (lookupD vars2 x)
    | .error e => .error e
  | .error e => .error e

example : underscoreFirst "_io" = true := by decide
example : underscoreFirst "styles" = false := by decide

/-! ## Scheduler embedding (`GenericApp` in `src/pathomx/ui.py`) -/

/-- The configuration-change signals `RECALCULATE_ALL` and
`RECALCULATE_VIEW` imported from `pyqtconfig`. -/
inductive Sig where
  | RECALCULATE_ALL
  | RECALCULATE_VIEW
  deriving DecidableEq, Repr

/-- The tagged view payload produced by `prerender`
(`{'fig': v}`, `{'svg': v}`, `{'html': v}`, `{'data': v}`). -/
inductive Tagged where
  | fig (v : PyValue)
  | svg (v : PyValue)
  | html (v : PyValue)
  | data (v : PyValue)
  deriving DecidableEq, Repr

/-- The `varsi` mapping assembled by `GenericApp.generate` and handed
to `notebook_queue.add_job`: the `_io` aliasing tables, the
configuration dict, the filtered `rcParams`, the global `styles`
object and the notebook/cache paths. -/
structure Varsi where
  ioInput : List (String × Option String)
  ioOutput : List (String × String)
  config : List (String × Int)
  rcParams : List (String × Int)
  styles : PyValue
  notebookPath : String
  pickleIn : String
  pickleOut : String
  deriving DecidableEq, Repr

/-- The scheduler-relevant state of one `GenericApp` tool instance.
`dataI` maps each input port to `some (mi, id(mo.v))` when bound to
an upstream output, `dataO` lists the output port names, `published`
is the tool's view of the datasets it has `put` into its data
manager, and `styles` stands for the module-global styles object. -/
structure ToolState where
  toolId : Nat
  code : String
  isJobActive : Bool
  queuedStart : Bool
  pauseAnalysisFlag : Bool
  latestGeneratorResult : Option Dict
  dataI : List (String × Option (String × Nat))
  dataO : List String
  published : Dict
  config : List (String × Int)
  rcParams : List (String × Int)
  styles : PyValue
  notebookPath : String
  pickleIn : String
  pickleOut : String
  statusLine : String
  viewsData : Option (List (String × Tagged))
  deriving DecidableEq, Repr

/-- The table `io['input'][i] = "_%s_%s" % (mi, id(mo.v))` for bound ports,
`None` for unbound ones. -/
def ioInputOf (dataI : List (String × Option (String × Nat))) :
    List (String × Option String) :=
  dataI.map (fun kv =>
    (kv.1, kv.2.map (fun mo => "_" ++ mo.1 ++ "_" ++ toString mo.2)))

/-- The table `io['output'][o] = "_%s_%s" % (o, id(self))`. -/
def ioOutputOf (dataO : List String) (toolId : Nat) : List (String × String) :=
  dataO.map (fun o => (o, "_" ++ o ++ "_" ++ toString toolId))

/-- The list `strip_rcParams` from `GenericApp.generate`. -/
def strip_rcParams : List String := ["tk.pythoninspect", "savefig.extension"]

/-- The `varsi` snapshot `generate` builds from the tool's current
state at the moment it dispatches. -/
def mkVarsi (s : ToolState) : Varsi :=
  { ioInput := ioInputOf s.dataI
    ioOutput := ioOutputOf s.dataO s.toolId
    config := s.config
    rcParams := s.rcParams.filter (fun kv => !(decide (kv.1 ∈ strip_rcParams)))
    styles := s.styles
    notebookPath := s.notebookPath
    pickleIn := s.pickleIn
    pickleOut := s.pickleOut }

/-- A job handed to `notebook_queue.add_job(self.code, varsi, ...)`. -/
structure Job where
  code : String
  varsi : Varsi
  deriving DecidableEq, Repr

/-- The job `generate` dispatches from state `s`. -/
def mkJob (s : ToolState) : Job := { code := s.code, varsi := mkVarsi s }

/-- Result of running one scheduler method: the new tool state, the
worker jobs dispatched during the call, the Python return value
(`some false` for `return False`, `none` for falling off the end)
and the `DataManager.put` calls performed. -/
structure StepOut where
  state : ToolState
  jobs : List Job
  ret : Option Bool
  puts : List (String × PyValue)
  deriving DecidableEq, Repr

/-- A method call that changes nothing, dispatches nothing and
returns `None`. -/
def noop (s : ToolState) : StepOut :=
  { state := s, jobs := [], ret := none, puts := [] }

/-- Method `GenericApp.generate`: if no job is active, mark active, clear
the queued flag, emit `active` and dispatch exactly one worker job
built from the current state; otherwise set the queued flag and
return `False` without dispatching. -/
def generate (s : ToolState) : StepOut :=
  if s.isJobActive = false then
    let s1 := { s with isJobActive := true, queuedStart := false,
                       statusLine := "active" }
    { state := s1, jobs := [mkJob s], ret := none, puts := [] }
  else
    { state := { s with queuedStart := true }, jobs := [], ret := some false,
      puts := [] }

/-- Method `GenericApp.autogenerate`: while the pause-analysis flag is set,
emit `paused` and return `False` without touching the scheduler;
otherwise call `generate` (discarding its return value). -/
def autogenerate (s : ToolState) : StepOut :=
  if s.pauseAnalysisFlag then
    { state := { s with statusLine := "paused" }, jobs := [], ret := some false,
      puts := [] }
  else
    let g := generate s
    { g with ret := none }

/-- Method `GenericApp.start_from_queue`: only when the queued flag is set
and no job is active, call `generate`. -/
def start_from_queue (s : ToolState) : StepOut :=
  if s.queuedStart then
    if s.isJobActive = false then generate s else noop s
  else noop s

/-- Method `GenericApp.generated`: for every declared output port present in
the worker's variable mapping, `put` the value into the data
manager.  Returns the new state and the list of `put` calls made. -/
def generated (varso : Dict) (s : ToolState) : ToolState × List (String × PyValue) :=
  let puts := s.dataO.filterMap (fun o => (lookupD varso o).map (fun v => (o, v)))
  ({ s with published := puts.foldl (fun p kv => insertD p kv.1 kv.2) s.published },
   puts)

/-- Method `GenericApp.prerender`: build the tagged view payloads for the
exact types it recognises. -/
def prerender (kwargs : Dict) : List (String × Tagged) :=
  kwargs.filterMap (fun kv =>
    match kv.2 with
    | .figure f => some (kv.1, .fig (.figure f))
    | .svgObj s => some (kv.1, .svg (.svgObj s))
    | .displaySVG s => some (kv.1, .svg (.displaySVG s))
    | .htmlObj s => some (kv.1, .html (.htmlObj s))
    | .dataFrame d => some (kv.1, .data (.dataFrame d))
    | _ => none)

/-- Method `GenericApp.autoprerender`: push `prerender` of the mapping into
the views (the delayed `source_data_updated` signal is elided). -/
def autoprerender (d : Dict) (s : ToolState) : ToolState :=
  { s with viewsData := some (prerender d) }

/-- Method `GenericApp.worker_cleanup`: publish matching outputs via
`generated`, re-render via `autoprerender`, then clear the
job-active flag. -/
def worker_cleanup (varso : Dict) (s : ToolState) : StepOut :=
  let g := generated varso s
  let s2 := autoprerender varso g.1
  { state := { s2 with isJobActive := false }, jobs := [], ret := none,
    puts := g.2 }

/-- The result record a worker hands back: `status` 0 on success,
-1 on failure. -/
structure WorkerResult where
  status : Int
  varso : Dict
  traceback : String
  deriving DecidableEq, Repr

/-- Method `GenericApp._worker_result_callback`: on success emit `done`,
take the worker's variable mapping and absorb a returned `styles`
value into the global; on failure emit `error` and proceed with an
empty mapping; then `worker_cleanup`.  A status other than 0 or -1
would leave `varso` unbound and raise `NameError`. -/
def workerResultCallback (result : WorkerResult) (s : ToolState) :
    Except String StepOut :=
  if result.status = 0 then
    let s1 := { s with statusLine := "done" }
    let s2 :=
      match lookupD result.varso "styles" with
      | some st => { s1 with styles := st }
      | none => s1
    .ok (worker_cleanup result.varso s2)
  else if result.status = -1 then
    .ok (worker_cleanup [] { s with statusLine := "error" })
  else
    .error "NameError"

/-- Method `GenericApp.autoconfig`: a full recompute when the signal is
`RECALCULATE_ALL` or no generator result exists yet; a view-only
re-render when the signal is `RECALCULATE_VIEW` and a result exists. -/
def autoconfig (sig : Sig) (s : ToolState) : StepOut :=
  if sig = .RECALCULATE_ALL ∨ s.latestGeneratorResult = none then
    autogenerate s
  else if sig = .RECALCULATE_VIEW then
    { state := autoprerender (s.latestGeneratorResult.getD []) s, jobs := [],
      ret := none, puts := [] }
  else noop s

/-- Method `GenericApp.onAutoAnalysisToggle`: the pause-analysis flag
follows the checkbox. -/
def onAutoAnalysisToggle (checked : Bool) (s : ToolState) : ToolState :=
  { s with pauseAnalysisFlag := checked }

/-- Modelled from the spec: the run-queue module (`notebook_queue`,
imported in `src/pathomx/ui.py` but not present under `src/`) invokes
the tool's `_worker_result_callback` and then its `start_from_queue`
when a worker run completes (§4.3: "On worker completion ... if the
queued flag was set, clear it and immediately transition to `Running`
again"). -/
def onWorkerComplete (result : WorkerResult) (s : ToolState) :
    Except String StepOut :=
  match workerResultCallback result s with
  | .ok o =>
    let q := start_from_queue o.state
    .ok { state := q.state, jobs := o.jobs ++ q.jobs, ret := none,
          puts := o.puts }
  | .error e => .error e

/-! ### Trace semantics for the single-flight invariant -/

/-- A tool together with the number of worker runs dispatched but not
yet completed. -/
structure Sys where
  tool : ToolState
  inflight : Nat
  deriving DecidableEq, Repr

/-- The events that drive one tool's scheduler state. -/
inductive Event where
  | gen
  | autogen
  | queueStart
  | toggle (b : Bool)
  | config (sig : Sig)
  | complete (res : WorkerResult)
  deriving DecidableEq, Repr

/-- Apply a method's output on top of `n` outstanding runs. -/
def applyOut (n : Nat) (o : StepOut) : Sys :=
  { tool := o.state, inflight := n + o.jobs.length }

/-- One step of the tool's event loop.  `complete` is only enabled
while a run is outstanding, and only for the worker statuses 0 and
-1 that the run queue produces. -/
def stepSys (s : Sys) (e : Event) : Option Sys :=
  match e with
  | .gen => some (applyOut s.inflight (generate s.tool))
  | .autogen => some (applyOut s.inflight (autogenerate s.tool))
  | .queueStart => some (applyOut s.inflight (start_from_queue s.tool))
  | .toggle b => some { s with tool := onAutoAnalysisToggle b s.tool }
  | .config sig => some (applyOut s.inflight (autoconfig sig s.tool))
  | .complete res =>
    match s.inflight with
    | 0 => none
    | m + 1 =>
      match workerResultCallback res s.tool with
      | .ok o => some (applyOut m o)
      | .error _ => none

/-- Run a list of events from a state; `none` when a disabled event
is hit. -/
def runEvents (s : Sys) : List Event → Option Sys
  | [] => some s
  | e :: es =>
    match stepSys s e with
    | some s' => runEvents s' es
    | none => none

/-- The single-flight invariant: the number of outstanding worker
runs is exactly the job-active flag. -/
def inflightInv (s : Sys) : Prop :=
  s.inflight = if s.tool.isJobActive then 1 else 0

instance (s : Sys) : Decidable (inflightInv s) := by
  unfold inflightInv; infer_instance

/-- One scheduler method preserves the single-flight accounting when
the outstanding-run count it starts from matches the job-active flag
and the count plus the dispatched jobs matches the new flag. -/
def invStep (s : ToolState) (o : StepOut) : Prop :=
  (if s.isJobActive then 1 else 0) + o.jobs.length =
    if o.state.isJobActive then 1 else 0

/-! ### Concrete states used by witnesses and counterexamples -/

/-- An idle tool instance with one bound input port and one output
port, as after `init_auto_consume_data`. -/
def toolIdle : ToolState :=
  { toolId := 42
    code := "c = a + 1"
    isJobActive := false
    queuedStart := false
    pauseAnalysisFlag := false
    latestGeneratorResult := none
    dataI := [("input_data", some ("output_data", 7))]
    dataO := ["output_data"]
    published := [("output_data", .ndarray [3])]
    config := [("bins", 10)]
    rcParams := [("lines.linewidth", 2), ("savefig.extension", 1)]
    styles := .stylesManager 0
    notebookPath := "/plugins/demo/demo.ipynb"
    pickleIn := "/tmp/42/in"
    pickleOut := "/tmp/42/out"
    statusLine := "ready"
    viewsData := none }

/-- The same tool while a worker run is in flight. -/
def toolActive : ToolState := { toolIdle with isJobActive := true }

/-- The same tool in flight with a coalesced pending request. -/
def toolActiveQueued : ToolState := { toolActive with queuedStart := true }

/-- The same tool with automatic analysis paused. -/
def toolPaused : ToolState := { toolIdle with pauseAnalysisFlag := true }

/-- A figure carrying live render caches everywhere. -/
def figEx : FigureData := ⟨some 1, [⟨some 2, [⟨some 3, 5⟩], 6⟩], 7⟩

/-- The tool after a successful run recorded a generator result. -/
def toolWithResult : ToolState :=
  { toolIdle with latestGeneratorResult := some [("view1", .figure figEx)] }

/-- A successful worker result that produced the declared output and
a new styles object. -/
def resOk : WorkerResult :=
  ⟨0, [("output_data", .ndarray [9]), ("styles", .stylesManager 3)], ""⟩

/-- A failed worker result (its variable mapping is discarded). -/
def resFail : WorkerResult :=
  ⟨-1, [("output_data", .ndarray [9])], "Traceback (most recent call last)"⟩

/-- The callback output for `resFail` against `toolActive`. -/
def failOut : StepOut := worker_cleanup [] { toolActive with statusLine := "error" }

/-- The completion output for `resOk` against the queued tool. -/
def c2out : StepOut :=
  (onWorkerComplete resOk toolActiveQueued).toOption.getD (noop toolIdle)

/-- A live namespace at the end of a run: plumbing, a figure with
live caches, a variable loaded from the input snapshot, a
non-portable string and a fresh array. -/
def varsEx : Dict :=
  [("_io", .ioDict [] [("out1", "_out1_42")]),
   ("_pathomx_exclude_input_vars", .strList ["loaded_in"]),
   ("rcParams", .pyDict []),
   ("fig1", .figure figEx),
   ("loaded_in", .ndarray [4]),
   ("note", .pyStr "hi"),
   ("arr", .ndarray [1, 2])]

/-- Result of `pathomx_notebook_stop` applied to `varsEx`. -/
def stopEx : Dict × Dict := (pathomx_notebook_stop varsEx).toOption.getD ([], [])

/-- A namespace carrying a pre-existing `styles` binding. -/
def stylesNS : Dict := insertD decodePlumbing "styles" (.stylesManager 7)

/-- Result of `pathomx_notebook_start` on an empty snapshot over `stylesNS`. -/
def c7res : Dict :=
  (pathomx_notebook_start "/tmp/42/in" (some []) stylesNS).toOption.getD []

/-- A namespace with a single non-portable binding. -/
def noteNS : Dict := [("note", .pyStr "hi")]

/-- A namespace binding a name to an instance of a strict subclass
of `pd.DataFrame`, next to the usual plumbing. -/
def subclassNS : Dict :=
  insertD basePlumbing "frame2" (.subclassVal .dataFrame 11)

/-- Result of `pathomx_notebook_stop` applied to `subclassNS`. -/
def stopSub : Dict × Dict :=
  (pathomx_notebook_stop subclassNS).toOption.getD ([], [])

/-- The keys of a dict, in order. -/
def keysOf (d : Dict) : List String := d.map (fun kv => kv.1)

/-- The pure form of one collection-loop iteration of
`pathomx_notebook_stop`, once the exclusion list is known to be
present with value `excl`. -/
def collectF (excl : List String) (ov : Dict) (kv : String × PyValue) : Dict :=
  if underscoreFirst kv.1 then ov
  else if kv.1 ∈ excl then ov
  else if typeOf kv.2 ∈ MAGIC_TYPES then insertD ov kv.1 (encodeStrip kv.2)
  else ov

/-! ## Helper lemmas -/

lemma lookupD_insertD (d : Dict) (k k' : String) (v : PyValue) :
    lookupD (insertD d k v) k' = if k = k' then some v else lookupD d k' := by
  induction d with
  | nil => simp [insertD, lookupD]
  | cons kv rest ih =>
    obtain ⟨k0, v0⟩ := kv
    by_cases h0 : k0 = k
    · subst h0
      by_cases h1 : k0 = k'
      · subst h1
        simp [insertD, lookupD]
      · simp [insertD, lookupD, h1]
    · by_cases h1 : k0 = k'
      · subst h1
        simp [insertD, lookupD, h0, Ne.symm h0]
      · simp [insertD, lookupD, h0, h1, ih]

lemma lookupD_mem_keys (d : Dict) (k : String) (v : PyValue)
    (h : lookupD d k = some v) : k ∈ keysOf d := by
  induction d with
  | nil => simp [lookupD] at h
  | cons kv rest ih =>
    obtain ⟨k0, v0⟩ := kv
    by_cases h0 : k0 = k
    · subst h0
      simp [keysOf]
    · simp only [lookupD, h0, if_false] at h
      simp [keysOf]
      right
      simpa [keysOf] using ih h

lemma keysOf_cons (kv : String × PyValue) (rest : Dict) :
    keysOf (kv :: rest) = kv.1 :: keysOf rest := rfl

/-- A binding that survives a `filter` satisfied the predicate. -/
lemma lookupD_filter_not (p : String × PyValue → Bool) (l : Dict)
    (k : String) (v : PyValue) (h : lookupD (l.filter p) k = some v) :
    p (k, v) = true := by
  induction l with
  | nil => simp [lookupD] at h
  | cons kv rest ih =>
    obtain ⟨k0, v0⟩ := kv
    cases hp : p (k0, v0)
    · rw [List.filter_cons_of_neg (by simp [hp])] at h
      exact ih h
    · rw [List.filter_cons_of_pos hp] at h
      by_cases h0 : k0 = k
      · subst h0
        simp [lookupD] at h
        exact h ▸ hp
      · simp only [lookupD, h0, if_false] at h
        exact ih h

/-- The first binding of a key survives a `filter` the pair
satisfies. -/
lemma lookupD_filter_keep (p : String × PyValue → Bool) (l : Dict)
    (k : String) (v : PyValue) (h : lookupD l k = some v)
    (hp : p (k, v) = true) : lookupD (l.filter p) k = some v := by
  induction l with
  | nil => simp [lookupD] at h
  | cons kv rest ih =>
    obtain ⟨k0, v0⟩ := kv
    by_cases h0 : k0 = k
    · subst h0
      simp [lookupD] at h
      rw [List.filter_cons_of_pos (by rw [h]; exact hp)]
      simp [lookupD, h]
    · simp only [lookupD, h0, if_false] at h
      cases hpc : p (k0, v0)
      · rw [List.filter_cons_of_neg (by simp [hpc])]
        exact ih h
      · rw [List.filter_cons_of_pos hpc]
        simp only [lookupD, h0, if_false]
        exact ih h

lemma keysOf_insertD (d : Dict) (k : String) (v : PyValue) :
    keysOf (insertD d k v) =
      if k ∈ keysOf d then keysOf d else keysOf d ++ [k] := by
  induction d with
  | nil => simp [insertD, keysOf]
  | cons kv rest ih =>
    obtain ⟨k0, v0⟩ := kv
    by_cases h0 : k0 = k
    · subst h0
      simp [insertD, keysOf_cons]
    · simp only [insertD, h0, if_false, keysOf_cons]
      by_cases hm : k ∈ keysOf rest
      · rw [if_pos (by simp [hm])]
        rw [ih, if_pos hm]
      · rw [if_neg (by simp [hm]; exact fun he => h0 he.symm)]
        rw [ih, if_neg hm]
        simp

lemma nodup_keysOf_insertD (d : Dict) (k : String) (v : PyValue)
    (h : (keysOf d).Nodup) : (keysOf (insertD d k v)).Nodup := by
  rw [keysOf_insertD]
  by_cases hm : k ∈ keysOf d
  · simpa [hm] using h
  · simp only [hm, if_false]
    simp [List.nodup_append, h, hm]

/-- The output-aliasing fold keeps dict keys duplicate-free. -/
lemma nodup_keysOf_alias (output : List (String × String)) :
    ∀ d : Dict, (keysOf d).Nodup →
      (keysOf (output.foldl aliasOut d)).Nodup := by
  induction output with
  | nil => intro d h; exact h
  | cons kv out ih =>
    intro d h
    rw [List.foldl_cons]
    apply ih
    unfold aliasOut
    cases hl : lookupD d kv.1 <;> simp [nodup_keysOf_insertD _ _ _ h]

/-- With the exclusion list present under its key, the effectful
collection loop of `pathomx_notebook_stop` is the pure fold of
`collectF`. -/
lemma collect_foldlM (vars : Dict) (excl : List String)
    (hE : lookupD vars "_pathomx_exclude_input_vars" = some (.strList excl)) :
    ∀ (l : List (String × PyValue)) (ov : Dict),
      List.foldlM (collectStep vars) ov l =
        .ok (l.foldl (collectF excl) ov) := by
  intro l
  induction l with
  | nil => intro ov; rfl
  | cons kv rest ih =>
    intro ov
    rw [List.foldlM_cons]
    have hstep : collectStep vars ov kv = .ok (collectF excl ov kv) := by
      unfold collectStep collectF
      cases hu : underscoreFirst kv.1
      · simp only [hu, Bool.false_eq_true, if_false]
        rw [hE]
        by_cases hm : kv.1 ∈ excl
        · simp [hm]
        · simp only [hm, if_false]
          by_cases hg : typeOf kv.2 ∈ MAGIC_TYPES
          · simp [hg]
          · simp [hg]
      · simp [hu]
    rw [hstep]
    simp only [ih]
    rfl

/-- Lookup in the result of the pure collection fold, characterised
by lookup in the source dict. -/
lemma lookup_collect_foldl (excl : List String) :
    ∀ (l : List (String × PyValue)) (ov : Dict) (k : String),
      (keysOf l).Nodup →
      (∀ k', k' ∈ keysOf l → lookupD ov k' = none) →
      lookupD (l.foldl (collectF excl) ov) k =
        match lookupD l k with
        | some v =>
          if underscoreFirst k = false ∧ k ∉ excl ∧ typeOf v ∈ MAGIC_TYPES
          then some (encodeStrip v) else none
        | none => lookupD ov k := by
  intro l
  induction l with
  | nil => intro ov k _ _; rfl
  | cons kv rest ih =>
    intro ov k hnd hacc
    obtain ⟨k0, v0⟩ := kv
    rw [List.foldl_cons]
    have hnd' : (keysOf rest).Nodup := by
      rw [keysOf_cons] at hnd
      exact List.Nodup.of_cons hnd
    have hk0 : k0 ∉ keysOf rest := by
      rw [keysOf_cons] at hnd
      exact (List.nodup_cons.mp hnd).1
    have hacc' : ∀ k', k' ∈ keysOf rest →
        lookupD (collectF excl ov (k0, v0)) k' = none := by
      intro k' hk'
      have hne : ¬(k0 = k') := fun he => hk0 (he ▸ hk')
      have hov : lookupD ov k' = none :=
        hacc k' (by rw [keysOf_cons]; exact List.mem_cons_of_mem _ hk')
      unfold collectF
      split
      · exact hov
      · split
        · exact hov
        · split
          · rw [lookupD_insertD]
            simp [hne, hov]
          · exact hov
    rw [ih (collectF excl ov (k0, v0)) k hnd' hacc']
    by_cases h0 : k0 = k
    · subst h0
      have hrest : lookupD rest k0 = none := by
        cases hl : lookupD rest k0 with
        | none => rfl
        | some w => exact absurd (lookupD_mem_keys _ _ _ hl) hk0
      rw [hrest]
      simp only [lookupD, if_pos rfl]
      have hov0 : lookupD ov k0 = none :=
        hacc k0 (by rw [keysOf_cons]; exact List.mem_cons_self _ _)
      unfold collectF
      by_cases hu : underscoreFirst k0 = true
      · simp [hu, hov0]
      · have hu' : underscoreFirst k0 = false := by
          revert hu; cases underscoreFirst k0 <;> simp
        by_cases hm : k0 ∈ excl
        · simp [hu', hm, hov0]
        · by_cases hg : typeOf v0 ∈ MAGIC_TYPES
          · simp [hu', hm, hg, lookupD_insertD]
          · simp [hu', hm, hg, hov0]
    · simp only [lookupD, h0, if_false]
      cases hl : lookupD rest k with
      | some w => simp
      | none =>
        simp only []
        unfold collectF
        split
        · rfl
        · split
          · rfl
          · split
            · rw [lookupD_insertD]
              simp [h0]
            · rfl

/-- The output mapping of `pathomx_notebook_stop`, characterised
pointwise: a key maps to the (figure-stripped) value of the mutated
namespace exactly when its name is public, not excluded and its
value portable. -/
lemma stop_char (vars vars2 ovars : Dict) (excl : List String)
    (hnd : (keysOf vars).Nodup)
    (hstop : pathomx_notebook_stop vars = .ok (vars2, ovars))
    (hE : lookupD vars2 "_pathomx_exclude_input_vars" = some (.strList excl)) :
    ∀ k : String,
      lookupD ovars k =
        match lookupD vars2 k with
        | some v =>
          if underscoreFirst k = false ∧ k ∉ excl ∧ typeOf v ∈ MAGIC_TYPES
          then some (encodeStrip v) else none
        | none => none := by
  unfold pathomx_notebook_stop at hstop
  cases hio : lookupD vars "_io"
  case none => rw [hio] at hstop; exact absurd hstop (by simp)
  case some v =>
    rw [hio] at hstop
    cases v
    case ioDict input output =>
      simp only [] at hstop
      have hnd2 : (keysOf (output.foldl aliasOut vars)).Nodup :=
        nodup_keysOf_alias output vars hnd
      cases hm : List.foldlM (collectStep (output.foldl aliasOut vars))
          ([] : Dict) (output.foldl aliasOut vars) with
      | error e => rw [hm] at hstop; exact absurd hstop (by simp)
      | ok ov =>
        rw [hm] at hstop
        simp only [Except.ok.injEq, Prod.mk.injEq] at hstop
        obtain ⟨hv2, hov⟩ := hstop
        subst hv2
        subst hov
        have hfold := collect_foldlM (output.foldl aliasOut vars) excl hE
          (output.foldl aliasOut vars) []
        rw [hm] at hfold
        simp only [Except.ok.injEq] at hfold
        subst hfold
        intro k
        exact lookup_collect_foldl excl (output.foldl aliasOut vars) [] k hnd2
          (fun k' _ => rfl)
    all_goals exact absurd hstop (by simp)

/-- Everything `encodeStrip` delivers as a figure went through
`figure_prepickle_handler`: all render caches are cleared. -/
lemma encodeStrip_figure (v : PyValue) (f : FigureData)
    (h : encodeStrip v = .figure f) :
    f.cachedRenderer = none ∧
    ∀ ax ∈ f.axes, ax.cachedRenderer = none ∧
      ∀ im ∈ ax.images, im.imcache = none := by
  cases v <;> simp [encodeStrip] at h
  case figure f0 =>
    subst h
    refine ⟨rfl, ?_⟩
    intro ax hax
    simp only [figure_prepickle_handler, List.mem_map] at hax
    obtain ⟨a0, _, rfl⟩ := hax
    refine ⟨rfl, ?_⟩
    intro im him
    simp only [List.mem_map] at him
    obtain ⟨i0, _, rfl⟩ := him
    rfl

lemma invStep_generate (s : ToolState) : invStep s (generate s) := by
  unfold invStep generate
  cases h : s.isJobActive <;> simp [h]

lemma invStep_autogenerate (s : ToolState) : invStep s (autogenerate s) := by
  unfold autogenerate
  cases h : s.pauseAnalysisFlag
  · have hg := invStep_generate s
    unfold invStep at hg ⊢
    simpa [h] using hg
  · unfold invStep
    simp [h]

lemma invStep_noop (s : ToolState) : invStep s (noop s) := by
  unfold invStep noop
  simp

lemma invStep_start_from_queue (s : ToolState) : invStep s (start_from_queue s) := by
  unfold start_from_queue
  cases hq : s.queuedStart
  · simpa [hq] using invStep_noop s
  · cases ha : s.isJobActive
    · simpa [hq, ha] using invStep_generate s
    · simpa [hq, ha] using invStep_noop s

lemma invStep_autoconfig (sig : Sig) (s : ToolState) :
    invStep s (autoconfig sig s) := by
  unfold autoconfig
  by_cases h1 : sig = .RECALCULATE_ALL ∨ s.latestGeneratorResult = none
  · simpa [h1] using invStep_autogenerate s
  · obtain ⟨h1a, h1b⟩ := not_or.mp h1
    by_cases h2 : sig = .RECALCULATE_VIEW
    · unfold invStep
      simp [h1a, h1b, h2, autoprerender]
    · unfold invStep
      simp [h1a, h1b, h2, noop]

/-- Fields of the tool state that `worker_cleanup` leaves untouched,
plus the flag it clears. -/
lemma worker_cleanup_fields (varso : Dict) (s : ToolState) :
    (worker_cleanup varso s).state.isJobActive = false ∧
    (worker_cleanup varso s).jobs = [] ∧
    (worker_cleanup varso s).state.queuedStart = s.queuedStart ∧
    (worker_cleanup varso s).state.dataI = s.dataI ∧
    (worker_cleanup varso s).state.dataO = s.dataO ∧
    (worker_cleanup varso s).state.toolId = s.toolId ∧
    (worker_cleanup varso s).state.config = s.config ∧
    (worker_cleanup varso s).state.code = s.code ∧
    (worker_cleanup varso s).state.published =
      ((generated varso s).1).published := by
  unfold worker_cleanup autoprerender generated
  simp

/-- Every `.ok` output of `_worker_result_callback` comes out of
`worker_cleanup`: the job-active flag is cleared, nothing is
dispatched, and the queued flag and the input/output/configuration
fields are carried over from the incoming state. -/
lemma workerResultCallback_ok (res : WorkerResult) (s : ToolState) (o : StepOut)
    (h : workerResultCallback res s = .ok o) :
    o.state.isJobActive = false ∧
    o.jobs = [] ∧
    o.state.queuedStart = s.queuedStart ∧
    o.state.dataI = s.dataI ∧
    o.state.dataO = s.dataO ∧
    o.state.toolId = s.toolId ∧
    o.state.config = s.config ∧
    o.state.code = s.code := by
  unfold workerResultCallback at h
  by_cases h0 : res.status = 0
  · rw [if_pos h0] at h
    cases hst : lookupD res.varso "styles" <;>
      · rw [hst] at h
        simp only [Except.ok.injEq] at h
        subst h
        simp [worker_cleanup, generated, autoprerender]
  · by_cases h1 : res.status = -1
    · rw [if_neg h0, if_pos h1] at h
      simp only [Except.ok.injEq] at h
      subst h
      simp [worker_cleanup, generated, autoprerender]
    · rw [if_neg h0, if_neg h1] at h
      exact absurd h (by simp)

/-- Every enabled step preserves the single-flight accounting. -/
lemma stepSys_inv (s s' : Sys) (e : Event) (hI : inflightInv s)
    (h : stepSys s e = some s') : inflightInv s' := by
  obtain ⟨t, n⟩ := s
  unfold inflightInv at hI ⊢
  simp only at hI
  cases e with
  | gen =>
    simp only [stepSys, Option.some.injEq] at h
    subst h
    have := invStep_generate t
    unfold invStep at this
    simp [applyOut, hI, this]
  | autogen =>
    simp only [stepSys, Option.some.injEq] at h
    subst h
    have := invStep_autogenerate t
    unfold invStep at this
    simp [applyOut, hI, this]
  | queueStart =>
    simp only [stepSys, Option.some.injEq] at h
    subst h
    have := invStep_start_from_queue t
    unfold invStep at this
    simp [applyOut, hI, this]
  | toggle b =>
    simp only [stepSys, Option.some.injEq] at h
    subst h
    simp [onAutoAnalysisToggle, hI]
  | config sig =>
    simp only [stepSys, Option.some.injEq] at h
    subst h
    have := invStep_autoconfig sig t
    unfold invStep at this
    simp [applyOut, hI, this]
  | complete res =>
    cases n with
    | zero => simp [stepSys] at h
    | succ m =>
      simp only [stepSys] at h
      cases hc : workerResultCallback res t with
      | error e => rw [hc] at h; simp at h
      | ok o =>
        rw [hc] at h
        simp only [Option.some.injEq] at h
        subst h
        have hok := workerResultCallback_ok res t o hc
        cases ha : t.isJobActive
        · rw [ha] at hI; simp at hI
        · rw [ha] at hI
          simp only [if_true] at hI
          have hm : m = 0 := by omega
          simp [applyOut, hok.1, hok.2.1, hm]

/-- The single-flight accounting is preserved along every enabled
event trace. -/
lemma runEvents_inv :
    ∀ (es : List Event) (s s' : Sys), inflightInv s →
      runEvents s es = some s' → inflightInv s' := by
  intro es
  induction es with
  | nil =>
    intro s s' hI h
    simp only [runEvents, Option.some.injEq] at h
    subst h; exact hI
  | cons e es ih =>
    intro s s' hI h
    unfold runEvents at h
    cases hs : stepSys s e with
    | none => rw [hs] at h; simp at h
    | some s1 =>
      rw [hs] at h
      exact ih s1 s' (stepSys_inv s s1 e hI hs) h

/-! ## Claim theorems -/

/-- C1: Single-flight request: calling `generate` while a job is
active dispatches no worker job, returns `False` and changes only
the queued flag; repeated calls while active coalesce to that single
flag; calling `generate` while idle marks the tool active and
dispatches exactly one job; and along every event trace from an idle
tool at most one worker run is outstanding at any instant. -/
theorem claim_c1_single_flight :
    (∀ s : ToolState, s.isJobActive = true →
      generate s = { state := { s with queuedStart := true }, jobs := [],
                     ret := some false, puts := [] })
    ∧ (∀ s : ToolState, s.isJobActive = true →
      (generate (generate s).state).state = (generate s).state)
    ∧ (∀ s : ToolState, s.isJobActive = false →
      (generate s).jobs = [mkJob s] ∧ (generate s).state.isJobActive = true)
    ∧ (∀ t0 : ToolState, t0.isJobActive = false →
      ∀ (es : List Event) (s' : Sys),
        runEvents { tool := t0, inflight := 0 } es = some s' →
        s'.inflight ≤ 1) := by
  refine ⟨?_, ?_, ?_, ?_⟩
  · intro s h
    simp [generate, h]
  · intro s h
    simp [generate, h]
  · intro s h
    simp [generate, h]
  · intro t0 h0 es s' hrun
    have hI : inflightInv { tool := t0, inflight := 0 } := by
      unfold inflightInv
      simp [h0]
    have hfin := runEvents_inv es _ s' hI hrun
    unfold inflightInv at hfin
    rw [hfin]
    split <;> omega

/-- Witness for C1 at concrete tool states. -/
theorem claim_c1_single_flight_witness :
    toolActive.isJobActive = true ∧
    generate toolActive =
      { state := { toolActive with queuedStart := true }, jobs := [],
        ret := some false, puts := [] } ∧
    toolIdle.isJobActive = false ∧
    (generate toolIdle).jobs = [mkJob toolIdle] ∧
    runEvents { tool := toolIdle, inflight := 0 } [.gen] =
      some (applyOut 0 (generate toolIdle)) ∧
    (applyOut 0 (generate toolIdle)).inflight ≤ 1 :=
  ⟨rfl, claim_c1_single_flight.1 toolActive rfl, rfl,
   (claim_c1_single_flight.2.2.1 toolIdle rfl).1, rfl,
   claim_c1_single_flight.2.2.2 toolIdle rfl [.gen]
     (applyOut 0 (generate toolIdle)) rfl⟩

/-- C9: Pause gate: while `_pause_analysis_flag` is set,
`autogenerate` emits `paused` and returns `False` without calling
`generate` — no job is dispatched and nothing but the status string
changes — so source-updated notifications and init-time auto-runs
(which both go through `autogenerate`) are suppressed;
`onAutoAnalysisToggle` sets the flag to the checkbox, so unchecking
clears the gate. -/
theorem claim_c9_pause_gate :
    (∀ s : ToolState, s.pauseAnalysisFlag = true →
      autogenerate s = { state := { s with statusLine := "paused" }, jobs := [],
                         ret := some false, puts := [] })
    ∧ (∀ (b : Bool) (s : ToolState),
      (onAutoAnalysisToggle b s).pauseAnalysisFlag = b) := by
  constructor
  · intro s h
    simp [autogenerate, h]
  · intro b s
    rfl

/-- Witness for C9 at a paused tool. -/
theorem claim_c9_pause_gate_witness :
    toolPaused.pauseAnalysisFlag = true ∧
    autogenerate toolPaused =
      { state := { toolPaused with statusLine := "paused" }, jobs := [],
        ret := some false, puts := [] } ∧
    (onAutoAnalysisToggle false toolPaused).pauseAnalysisFlag = false :=
  ⟨rfl, claim_c9_pause_gate.1 toolPaused rfl,
   claim_c9_pause_gate.2 false toolPaused⟩

/-- C3: Failure isolation: a worker result with status -1 sets the
tool status to `error` and the result handler proceeds with an empty
variable mapping: `generated` performs no `put`, no job is
dispatched, the views re-render from the empty mapping, and the
tool's previously published datasets (and the global styles) are
left unchanged. -/
theorem claim_c3_failure_isolation :
    ∀ (res : WorkerResult) (s : ToolState) (o : StepOut),
      res.status = -1 →
      workerResultCallback res s = .ok o →
      o.state.statusLine = "error" ∧
      o.puts = [] ∧
      o.state.published = s.published ∧
      o.state.styles = s.styles ∧
      o.jobs = [] ∧
      o.state.viewsData = some [] := by
  intro res s o h1 h2
  have h0 : ¬(res.status = 0) := by omega
  unfold workerResultCallback at h2
  rw [if_neg h0, if_pos h1] at h2
  simp only [Except.ok.injEq] at h2
  subst h2
  have hnil : ∀ l : List String,
      List.filterMap (fun o => (none : Option (String × PyValue))) l = [] := by
    intro l
    induction l with
    | nil => rfl
    | cons a l ih => simp [List.filterMap_cons, ih]
  simp [worker_cleanup, generated, autoprerender, prerender, lookupD, hnil]

/-- Witness for C3 at a concrete failed result. -/
theorem claim_c3_failure_isolation_witness :
    resFail.status = -1 ∧
    workerResultCallback resFail toolActive = .ok failOut ∧
    (failOut.state.statusLine = "error" ∧ failOut.puts = [] ∧
     failOut.state.published = toolActive.published ∧
     failOut.state.styles = toolActive.styles ∧
     failOut.jobs = [] ∧ failOut.state.viewsData = some []) :=
  ⟨rfl, rfl, claim_c3_failure_isolation resFail toolActive failOut rfl rfl⟩

/-- C2: Trailing re-run: when a worker run completes (success or
failure) while `_queued_start` is set, the completion path —
`_worker_result_callback`, then the run queue's (spec-modelled) call
to `start_from_queue` — clears the flag and dispatches exactly one
new job, and that job's `varsi` snapshot (`_io` tables,
configuration, code) is built from the tool state current at the
moment the new run starts, not recorded when the flag was first
set. -/
theorem claim_c2_trailing_rerun :
    ∀ (res : WorkerResult) (s : ToolState) (o : StepOut),
      (res.status = 0 ∨ res.status = -1) →
      s.queuedStart = true →
      onWorkerComplete res s = .ok o →
      o.state.queuedStart = false ∧
      o.state.isJobActive = true ∧
      o.jobs.length = 1 ∧
      o.jobs.map (fun j => j.varsi.ioInput) = [ioInputOf s.dataI] ∧
      o.jobs.map (fun j => j.varsi.ioOutput) = [ioOutputOf s.dataO s.toolId] ∧
      o.jobs.map (fun j => j.varsi.config) = [s.config] ∧
      o.jobs.map (fun j => j.code) = [s.code] := by
  intro res s o hst hq h
  unfold onWorkerComplete at h
  cases hc : workerResultCallback res s with
  | error e => rw [hc] at h; simp at h
  | ok o1 =>
    rw [hc] at h
    simp only [Except.ok.injEq] at h
    subst h
    obtain ⟨hA, hJ, hQ, hDI, hDO, hTid, hCfg, hCode⟩ :=
      workerResultCallback_ok res s o1 hc
    have hq1 : o1.state.queuedStart = true := hQ.trans hq
    simp [start_from_queue, generate, hq1, hA, hJ, mkJob, mkVarsi,
          hDI, hDO, hTid, hCfg, hCode]

/-- Witness for C2: a successful completion of the queued tool. -/
theorem claim_c2_trailing_rerun_witness :
    (resOk.status = 0 ∨ resOk.status = -1) ∧
    toolActiveQueued.queuedStart = true ∧
    (c2out.state.queuedStart = false ∧
     c2out.state.isJobActive = true ∧
     c2out.jobs.length = 1 ∧
     c2out.jobs.map (fun j => j.varsi.ioInput) =
       [ioInputOf toolActiveQueued.dataI] ∧
     c2out.jobs.map (fun j => j.varsi.ioOutput) =
       [ioOutputOf toolActiveQueued.dataO toolActiveQueued.toolId] ∧
     c2out.jobs.map (fun j => j.varsi.config) = [toolActiveQueued.config] ∧
     c2out.jobs.map (fun j => j.code) = [toolActiveQueued.code]) :=
  ⟨Or.inl rfl, rfl,
   claim_c2_trailing_rerun resOk toolActiveQueued c2out (Or.inl rfl) rfl rfl⟩

/-- C8 counterexample: on a freshly initialised tool
(`_latest_generator_result` is still `None`, as `GenericApp.__init__`
leaves it), handling a configuration change carrying the view-only
signal `RECALCULATE_VIEW` falls into the first branch of `autoconfig`
and dispatches a worker job, contradicting the claim that such an
event never re-invokes the Execution Worker. -/
theorem claim_c8_view_only_counterexample :
    toolIdle.latestGeneratorResult = none ∧
    (autoconfig .RECALCULATE_VIEW toolIdle).jobs.length = 1 := ⟨rfl, rfl⟩

/-- C8 amended: when a previous generator result exists,
`RECALCULATE_VIEW` only re-renders it via `autoprerender` — no job
is dispatched and no `put` is performed; when no result exists yet,
`autoconfig` performs a full `autogenerate` even for
`RECALCULATE_VIEW`. -/
theorem claim_c8_view_only_amended :
    ∀ (s : ToolState) (r : Dict),
      s.latestGeneratorResult = some r →
      autoconfig .RECALCULATE_VIEW s =
        { state := autoprerender r s, jobs := [], ret := none, puts := [] } := by
  intro s r h
  simp [autoconfig, h]

/-- Witness for the amended C8 at a tool holding a generator
result. -/
theorem claim_c8_view_only_amended_witness :
    toolWithResult.latestGeneratorResult = some [("view1", .figure figEx)] ∧
    autoconfig .RECALCULATE_VIEW toolWithResult =
      { state := autoprerender [("view1", .figure figEx)] toolWithResult,
        jobs := [], ret := none, puts := [] } :=
  ⟨rfl, claim_c8_view_only_amended toolWithResult [("view1", .figure figEx)] rfl⟩

/-- C6 counterexample: with the snapshot file missing,
`pathomx_notebook_start` raises (`IOError` from the unguarded
`open`) instead of degrading to an empty input set and proceeding. -/
theorem claim_c6_cache_error_counterexample :
    pathomx_notebook_start "/tmp/42/in" none decodePlumbing =
      .error "IOError" := rfl

/-- C6 amended: a missing or unreadable snapshot file makes
`pathomx_notebook_start` raise for every namespace and path — the
input-preparation step aborts the run rather than degrading to an
empty input set. -/
theorem claim_c6_cache_error_amended :
    ∀ (fn : String) (vars : Dict),
      pathomx_notebook_start fn none vars = .error "IOError" := by
  intro fn vars
  rfl
example : roundTrip "x" (.ndarray [1, 2]) = .ok (some (.ndarray [1, 2])) := rfl
example : roundTrip "rcParams" (.ndarray [1]) = .error "AttributeError" := rfl
example :
    roundTrip "x" (.figure ⟨some 5, [⟨some 2, [⟨some 3, 7⟩], 4⟩], 9⟩) =
      .ok (some (.figure ⟨none, [⟨none, [⟨none, 7⟩], 4⟩], 9⟩)) := rfl

/-- C5: Output collection: the mapping persisted by
`pathomx_notebook_stop` contains exactly the entries of the (output
aliased) namespace whose name does not start with `_`, is not in the
recorded exclusion list, and whose value's type is in `MAGIC_TYPES`;
every other entry is silently dropped; and every collected figure has
been rewritten by `figure_prepickle_handler` (cached renderer and all
axes image caches cleared). -/
theorem claim_c5_output_collection :
    ∀ (vars vars2 ovars : Dict) (excl : List String),
      (keysOf vars).Nodup →
      pathomx_notebook_stop vars = .ok (vars2, ovars) →
      lookupD vars2 "_pathomx_exclude_input_vars" = some (.strList excl) →
      (∀ k : String,
        lookupD ovars k =
          match lookupD vars2 k with
          | some v =>
            if underscoreFirst k = false ∧ k ∉ excl ∧ typeOf v ∈ MAGIC_TYPES
            then some (encodeStrip v) else none
          | none => none)
      ∧ (∀ (k : String) (f : FigureData),
          lookupD ovars k = some (.figure f) →
          f.cachedRenderer = none ∧
          ∀ ax ∈ f.axes, ax.cachedRenderer = none ∧
            ∀ im ∈ ax.images, im.imcache = none) := by
  intro vars vars2 ovars excl hnd hstop hE
  have hchar := stop_char vars vars2 ovars excl hnd hstop hE
  refine ⟨hchar, ?_⟩
  intro k f hk
  have h1 := hchar k
  rw [hk] at h1
  cases hl : lookupD vars2 k with
  | none => rw [hl] at h1; simp at h1
  | some v =>
    rw [hl] at h1
    simp only [] at h1
    by_cases hc : underscoreFirst k = false ∧ k ∉ excl ∧ typeOf v ∈ MAGIC_TYPES
    · rw [if_pos hc] at h1
      have hs : encodeStrip v = .figure f := by
        simpa using h1.symm
      exact encodeStrip_figure v f hs
    · rw [if_neg hc] at h1
      simp at h1

/-- Witness for C5 at a concrete end-of-run namespace. -/
theorem claim_c5_output_collection_witness :
    (keysOf varsEx).Nodup ∧
    pathomx_notebook_stop varsEx = .ok (stopEx.1, stopEx.2) ∧
    lookupD stopEx.1 "_pathomx_exclude_input_vars" =
      some (.strList ["loaded_in"]) ∧
    lookupD stopEx.2 "fig1" = some (.figure (figure_prepickle_handler figEx)) ∧
    lookupD stopEx.2 "loaded_in" = none ∧
    lookupD stopEx.2 "note" = none ∧
    lookupD stopEx.2 "_io" = none := by
  have h := claim_c5_output_collection varsEx stopEx.1 stopEx.2 ["loaded_in"]
    (by decide) rfl rfl
  refine ⟨by decide, rfl, rfl, ?_, ?_, ?_, ?_⟩
  · exact (h.1 "fig1").trans (by decide)
  · exact (h.1 "loaded_in").trans (by decide)
  · exact (h.1 "note").trans (by decide)
  · exact (h.1 "_io").trans (by decide)

/-- C7 counterexample: a pre-existing `styles` binding (a
`StylesManager`, a portable type, name not underscored) is removed by
the wipe loop of `pathomx_notebook_start` like any other portable
binding — it is not exempted from removal; with a snapshot that does
not carry `styles`, the binding is simply gone afterwards. -/
theorem claim_c7_wipe_counterexample :
    lookupD stylesNS "styles" = some (.stylesManager 7) ∧
    pathomx_notebook_start "/tmp/42/in" (some []) stylesNS = .ok c7res ∧
    lookupD c7res "styles" = none := ⟨rfl, rfl, rfl⟩

/-- C7 amended: the wipe removes every pre-existing binding whose
value's type is portable and whose name does not start with `_`,
including `styles`; the `styles` exemption lives in the exclusion
list instead — `styles` is the only snapshot key kept out of
`_pathomx_exclude_input_vars`, so it is reloaded from the snapshot
and re-collected at stop. -/
theorem claim_c7_wipe_amended :
    (∀ (vars : Dict) (k : String) (v : PyValue),
      lookupD (wipeVars vars) k = some v →
      underscoreFirst k = false →
      typeOf v ∉ MAGIC_TYPES)
    ∧ (∀ ivars : Dict, "styles" ∉ excludeInputVars ivars) := by
  constructor
  · intro vars k v h hu
    unfold wipeVars at h
    have hp := lookupD_filter_not _ vars k v h
    simp only [hu] at hp
    simpa using hp
  · intro ivars h
    unfold excludeInputVars at h
    have hf := List.of_mem_filter h
    simp at hf

/-- Witness for the amended C7. -/
theorem claim_c7_wipe_amended_witness :
    lookupD (wipeVars noteNS) "note" = some (.pyStr "hi") ∧
    underscoreFirst "note" = false ∧
    typeOf (.pyStr "hi") ∉ MAGIC_TYPES ∧
    "styles" ∉ excludeInputVars
      [("styles", .stylesManager 1), ("x", .ndarray [1])] :=
  ⟨rfl, rfl,
   claim_c7_wipe_amended.1 noteNS "note" (.pyStr "hi") rfl rfl,
   claim_c7_wipe_amended.2 [("styles", .stylesManager 1), ("x", .ndarray [1])]⟩

/-- C10: Exact-type allow-list: `type(v) in MAGIC_TYPES` is exact
type equality, so no strict-subclass instance is ever portable (and
nothing ever matches the non-type entry `np.array`):
`pathomx_notebook_stop` does not collect such a value and the wipe
loop of `pathomx_notebook_start` does not remove it. -/
theorem claim_c10_exact_type :
    (∀ t : PyType, PyType.subclass t ∉ MAGIC_TYPES)
    ∧ (∀ v : PyValue, typeOf v ≠ .npArrayFn)
    ∧ (∀ (vars vars2 ovars : Dict) (excl : List String) (k : String)
        (t : PyType) (n : Nat),
      (keysOf vars).Nodup →
      pathomx_notebook_stop vars = .ok (vars2, ovars) →
      lookupD vars2 "_pathomx_exclude_input_vars" = some (.strList excl) →
      lookupD vars2 k = some (.subclassVal t n) →
      lookupD ovars k = none)
    ∧ (∀ (vars : Dict) (k : String) (t : PyType) (n : Nat),
      lookupD vars k = some (.subclassVal t n) →
      lookupD (wipeVars vars) k = some (.subclassVal t n)) := by
  refine ⟨?_, ?_, ?_, ?_⟩
  · intro t
    simp [MAGIC_TYPES]
  · intro v
    cases v <;> simp [typeOf]
  · intro vars vars2 ovars excl k t n hnd hstop hE hk
    have h := stop_char vars vars2 ovars excl hnd hstop hE k
    rw [hk] at h
    simp only [] at h
    have hmem : typeOf (.subclassVal t n) ∉ MAGIC_TYPES := by
      simp [typeOf, MAGIC_TYPES]
    rw [h, if_neg (fun hc => hmem hc.2.2)]
  · intro vars k t n h
    unfold wipeVars
    apply lookupD_filter_keep _ _ _ _ h
    have hmem : typeOf (.subclassVal t n) ∉ MAGIC_TYPES := by
      simp [typeOf, MAGIC_TYPES]
    simp [hmem]

/-- Witness for C10 at a concrete subclass instance. -/
theorem claim_c10_exact_type_witness :
    PyType.subclass .dataFrame ∉ MAGIC_TYPES ∧
    typeOf (.subclassVal .dataFrame 11) ≠ .npArrayFn ∧
    ((keysOf subclassNS).Nodup ∧
     pathomx_notebook_stop subclassNS = .ok (stopSub.1, stopSub.2) ∧
     lookupD stopSub.1 "_pathomx_exclude_input_vars" = some (.strList []) ∧
     lookupD stopSub.1 "frame2" = some (.subclassVal .dataFrame 11) ∧
     lookupD stopSub.2 "frame2" = none) ∧
    (lookupD subclassNS "frame2" = some (.subclassVal .dataFrame 11) ∧
     lookupD (wipeVars subclassNS) "frame2" =
       some (.subclassVal .dataFrame 11)) :=
  ⟨claim_c10_exact_type.1 .dataFrame,
   claim_c10_exact_type.2.1 (.subclassVal .dataFrame 11),
   ⟨by decide, rfl, rfl, rfl,
    claim_c10_exact_type.2.2.1 subclassNS stopSub.1 stopSub.2 [] "frame2"
      .dataFrame 11 (by decide) rfl rfl rfl⟩,
   ⟨rfl, claim_c10_exact_type.2.2.2 subclassNS "frame2" .dataFrame 11 rfl⟩⟩

/-- Names with different first-character privacy are distinct. -/
lemma ne_of_us {x y : String} (hx : underscoreFirst x = false)
    (hy : underscoreFirst y = true) : x ≠ y := by
  intro he
  rw [he] at hx
  rw [hx] at hy
  exact Bool.noConfusion hy

/-- Encoding side of the round trip: `pathomx_notebook_stop` on a
plumbed namespace binding only `x` to a portable `v` persists exactly
`{x: encodeStrip v}`. -/
lemma stop_single (x : String) (v : PyValue)
    (hx : underscoreFirst x = false) (hv : typeOf v ∈ MAGIC_TYPES)
    (hr : x ≠ "rcParams") :
    pathomx_notebook_stop (insertD basePlumbing x v) =
      .ok (insertD basePlumbing x v, [(x, encodeStrip v)]) := by
  have h1 : x ≠ "_io" := ne_of_us hx (by decide)
  have h2 : x ≠ "_pathomx_exclude_input_vars" := ne_of_us hx (by decide)
  have hins : insertD basePlumbing x v =
      [("_io", PyValue.ioDict [] []),
       ("_pathomx_exclude_input_vars", PyValue.strList []),
       ("rcParams", PyValue.pyDict []), (x, v)] := by
    simp [basePlumbing, insertD, Ne.symm h1, Ne.symm h2, Ne.symm hr]
  rw [hins]
  have hE : lookupD
      [("_io", PyValue.ioDict [] []),
       ("_pathomx_exclude_input_vars", PyValue.strList []),
       ("rcParams", PyValue.pyDict []), (x, v)]
      "_pathomx_exclude_input_vars" = some (.strList []) := rfl
  have hF := collect_foldlM _ [] hE
      [("_io", PyValue.ioDict [] []),
       ("_pathomx_exclude_input_vars", PyValue.strList []),
       ("rcParams", PyValue.pyDict []), (x, v)] []
  have hfold :
      List.foldl (collectF []) ([] : Dict)
        [("_io", PyValue.ioDict [] []),
         ("_pathomx_exclude_input_vars", PyValue.strList []),
         ("rcParams", PyValue.pyDict []), (x, v)] =
      [(x, encodeStrip v)] := by
    simp only [List.foldl_cons, List.foldl_nil]
    show collectF [] ([] : Dict) (x, v) = [(x, encodeStrip v)]
    unfold collectF
    simp [hx, hv, insertD]
  unfold pathomx_notebook_stop
  rw [show lookupD
      [("_io", PyValue.ioDict [] []),
       ("_pathomx_exclude_input_vars", PyValue.strList []),
       ("rcParams", PyValue.pyDict []), (x, v)] "_io" =
      some (PyValue.ioDict [] []) from rfl]
  simp only [List.foldl_nil]
  rw [hF, hfold]

/-- Decoding side of the round trip: `pathomx_notebook_start` on a
snapshot binding only `x` rebinds `x` to the snapshot value. -/
lemma start_single (x : String) (sv : PyValue)
    (hx : underscoreFirst x = false) (hr : x ≠ "rcParams") :
    Except.map (fun d => lookupD d x)
      (pathomx_notebook_start "/tmp/job/in" (some [(x, sv)]) decodePlumbing) =
      .ok (some sv) := by
  have h1 : x ≠ "_io" := ne_of_us hx (by decide)
  have h2 : x ≠ "_pathomx_exclude_input_vars" := ne_of_us hx (by decide)
  have h3 : x ≠ "_pathomx_tempdir" := ne_of_us hx (by decide)
  simp [pathomx_notebook_start, decodePlumbing, wipeVars, insertD, lookupD,
        excludeInputVars, dirnameOf, Ne.symm h1, Ne.symm h2, Ne.symm h3,
        Ne.symm hr, h1, h2, h3, hr, hx]
  simp [Except.map, lookupD, Ne.symm h1, Ne.symm hr]

/-- C4 counterexample: the round trip fails for the reserved name
`rcParams`, a non-underscored name with a portable value: the reload
step of `pathomx_notebook_start` then iterates the array as the
matplotlib parameter dict and raises. -/
theorem claim_c4_roundtrip_counterexample :
    underscoreFirst "rcParams" = false ∧
    typeOf (.ndarray [1]) ∈ MAGIC_TYPES ∧
    roundTrip "rcParams" (.ndarray [1]) = .error "AttributeError" :=
  ⟨rfl, by decide, rfl⟩

/-- C4 amended: for every value of a portable type and every name not
starting with `_` and distinct from the reserved `rcParams` key,
`decode(encode({x: v}))` rebinds `x` to `encodeStrip v` — equal to
`v` itself whenever `v` carries no transient render cache, so the
round trip holds up to the figure cache stripping. -/
theorem claim_c4_roundtrip_amended :
    ∀ (x : String) (v : PyValue),
      underscoreFirst x = false →
      typeOf v ∈ MAGIC_TYPES →
      x ≠ "rcParams" →
      roundTrip x v = .ok (some (encodeStrip v)) ∧
      (cacheFree v → roundTrip x v = .ok (some v)) := by
  intro x v hx hv hr
  have hstop := stop_single x v hx hv hr
  have hstart := start_single x (encodeStrip v) hx hr
  have hmain : roundTrip x v = .ok (some (encodeStrip v)) := by
    unfold roundTrip
    rw [hstop]
    simp only []
    cases hs : pathomx_notebook_start "/tmp/job/in" (some [(x, encodeStrip v)])
        decodePlumbing with
    | error e =>
      rw [hs] at hstart
      exact absurd hstart (by simp [Except.map])
    | ok d =>
      rw [hs] at hstart
      simp only [Except.map, Except.ok.injEq] at hstart
      simp [hstart]
  refine ⟨hmain, ?_⟩
  intro hcf
  rw [hmain, hcf]

/-- Witness for the amended C4: an array and a cache-laden figure
round-trip through stop/start. -/
theorem claim_c4_roundtrip_amended_witness :
    underscoreFirst "arr" = false ∧
    typeOf (.ndarray [1, 2]) ∈ MAGIC_TYPES ∧
    roundTrip "arr" (.ndarray [1, 2]) = .ok (some (.ndarray [1, 2])) ∧
    roundTrip "fig1" (.figure figEx) =
      .ok (some (.figure (figure_prepickle_handler figEx))) :=
  ⟨rfl, by decide,
   (claim_c4_roundtrip_amended "arr" (.ndarray [1, 2]) rfl (by decide)
     (by decide)).2 (by decide),
   (claim_c4_roundtrip_amended "fig1" (.figure figEx) rfl (by decide)
     (by decide)).1⟩

end Pathomx
